import Mathlib

/-
Verification of the d2q9-bgk lattice Boltzmann code (src/d2q9-bgk.c).

The C grids are 1-D arrays of cells indexed `ii + jj*nx` (row-major,
`jj` outer, `ii` inner); a cell holds nine populations `speeds[0..8]`.
Floats are embedded as exact rationals; the update kernels are embedded
pointwise: each C loop writes each array index at most once, so a loop
is translated into the function giving the final value at each index.
-/

/-- One lattice cell: the nine populations `speeds[0..8]` of `t_speed`. -/
structure t_speed where
  speeds : Fin 9 → ℚ

/-- Build a cell from its nine populations (the `speeds` array literal). -/
def mkSpeed (a0 a1 a2 a3 a4 a5 a6 a7 a8 : ℚ) : t_speed :=
  ⟨fun k => match k with
    | ⟨0, _⟩ => a0
    | ⟨1, _⟩ => a1
    | ⟨2, _⟩ => a2
    | ⟨3, _⟩ => a3
    | ⟨4, _⟩ => a4
    | ⟨5, _⟩ => a5
    | ⟨6, _⟩ => a6
    | ⟨7, _⟩ => a7
    | ⟨8, _⟩ => a8⟩

@[simp] theorem mkSpeed_s0 (a0 a1 a2 a3 a4 a5 a6 a7 a8 : ℚ) :
    (mkSpeed a0 a1 a2 a3 a4 a5 a6 a7 a8).speeds 0 = a0 := rfl

@[simp] theorem mkSpeed_s1 (a0 a1 a2 a3 a4 a5 a6 a7 a8 : ℚ) :
    (mkSpeed a0 a1 a2 a3 a4 a5 a6 a7 a8).speeds 1 = a1 := rfl

@[simp] theorem mkSpeed_s2 (a0 a1 a2 a3 a4 a5 a6 a7 a8 : ℚ) :
    (mkSpeed a0 a1 a2 a3 a4 a5 a6 a7 a8).speeds 2 = a2 := rfl

@[simp] theorem mkSpeed_s3 (a0 a1 a2 a3 a4 a5 a6 a7 a8 : ℚ) :
    (mkSpeed a0 a1 a2 a3 a4 a5 a6 a7 a8).speeds 3 = a3 := rfl

@[simp] theorem mkSpeed_s4 (a0 a1 a2 a3 a4 a5 a6 a7 a8 : ℚ) :
    (mkSpeed a0 a1 a2 a3 a4 a5 a6 a7 a8).speeds 4 = a4 := rfl

@[simp] theorem mkSpeed_s5 (a0 a1 a2 a3 a4 a5 a6 a7 a8 : ℚ) :
    (mkSpeed a0 a1 a2 a3 a4 a5 a6 a7 a8).speeds 5 = a5 := rfl

@[simp] theorem mkSpeed_s6 (a0 a1 a2 a3 a4 a5 a6 a7 a8 : ℚ) :
    (mkSpeed a0 a1 a2 a3 a4 a5 a6 a7 a8).speeds 6 = a6 := rfl

@[simp] theorem mkSpeed_s7 (a0 a1 a2 a3 a4 a5 a6 a7 a8 : ℚ) :
    (mkSpeed a0 a1 a2 a3 a4 a5 a6 a7 a8).speeds 7 = a7 := rfl

@[simp] theorem mkSpeed_s8 (a0 a1 a2 a3 a4 a5 a6 a7 a8 : ℚ) :
    (mkSpeed a0 a1 a2 a3 a4 a5 a6 a7 a8).speeds 8 = a8 := rfl

/-- A lattice grid: the 1-D cell array `t_speed*` of the C code. -/
def Grid : Type := ℕ → t_speed

/-- Primary and scratch grids of one rank (`cells` and `tmp_cells`). -/
structure SimState where
  cells : Grid
  tmp : Grid

/-- `int y_n = (jj + 1) % params.ny` (propagate, line 727). -/
def y_n (ny jj : ℕ) : ℕ := (jj + 1) % ny

/-- `int x_e = (ii + 1) % params.nx` (propagate, line 728). -/
def x_e (nx ii : ℕ) : ℕ := (ii + 1) % nx

/-- `int y_s = (jj == 0) ? (jj + params.ny - 1) : (jj - 1)` (line 729). -/
def y_s (ny jj : ℕ) : ℕ := if jj = 0 then jj + ny - 1 else jj - 1

/-- `int x_w = (ii == 0) ? (ii + params.nx - 1) : (ii - 1)` (line 730). -/
def x_w (nx ii : ℕ) : ℕ := if ii = 0 then ii + nx - 1 else ii - 1

/-- The cell that propagate stores at `(ii, jj)` of the scratch grid:
lines 734-742 of the source, reading the primary grid `cells`. -/
def propagateCell (nx ny : ℕ) (cells : Grid) (ii jj : ℕ) : t_speed :=
  mkSpeed
    ((cells (ii + jj * nx)).speeds 0)
    ((cells (x_w nx ii + jj * nx)).speeds 1)
    ((cells (ii + y_s ny jj * nx)).speeds 2)
    ((cells (x_e nx ii + jj * nx)).speeds 3)
    ((cells (ii + y_n ny jj * nx)).speeds 4)
    ((cells (x_w nx ii + y_s ny jj * nx)).speeds 5)
    ((cells (x_e nx ii + y_s ny jj * nx)).speeds 6)
    ((cells (x_e nx ii + y_n ny jj * nx)).speeds 7)
    ((cells (x_w nx ii + y_n ny jj * nx)).speeds 8)

/-- `propagate`: the double loop over `jj < ny`, `ii < nx` writes scratch
index `ii + jj*nx` exactly once; indices outside the loop range keep the
previous scratch contents. -/
def propagate (nx ny : ℕ) (cells tmp : Grid) : Grid :=
  fun idx =>
    if idx < nx * ny then propagateCell nx ny cells (idx % nx) (idx / nx)
    else tmp idx

/-- `propagate` as a transition on the pair of grids: the source function
assigns only `tmp_cells[...]`, never `cells[...]`. -/
def propagate_step (nx ny : ℕ) (s : SimState) : SimState :=
  { cells := s.cells, tmp := propagate nx ny s.cells s.tmp }

theorem x_w_eq (nx ii : ℕ) (hii : ii < nx) : x_w nx ii = (ii + nx - 1) % nx := by
  unfold x_w
  rcases ii with _ | k
  · rw [if_pos rfl]
    have h1 : 0 + nx - 1 = nx - 1 := by omega
    rw [h1, Nat.mod_eq_of_lt (by omega)]
  · rw [if_neg (by omega)]
    have h1 : k + 1 + nx - 1 = k + nx := by omega
    rw [h1, Nat.add_mod_right, Nat.mod_eq_of_lt (by omega)]
    omega

theorem y_s_eq (ny jj : ℕ) (hjj : jj < ny) : y_s ny jj = (jj + ny - 1) % ny := by
  unfold y_s
  rcases jj with _ | k
  · rw [if_pos rfl]
    have h1 : 0 + ny - 1 = ny - 1 := by omega
    rw [h1, Nat.mod_eq_of_lt (by omega)]
  · rw [if_neg (by omega)]
    have h1 : k + 1 + ny - 1 = k + ny := by omega
    rw [h1, Nat.add_mod_right, Nat.mod_eq_of_lt (by omega)]
    omega

theorem idx_lt (nx ny ii jj : ℕ) (hii : ii < nx) (hjj : jj < ny) :
    ii + jj * nx < nx * ny := by
  have h1 : ii + jj * nx < (jj + 1) * nx := by
    have h0 : (jj + 1) * nx = jj * nx + nx := by ring
    omega
  have h2 : (jj + 1) * nx ≤ ny * nx := Nat.mul_le_mul_right nx hjj
  rw [Nat.mul_comm nx ny]
  omega

theorem propagate_at (nx ny : ℕ) (cells tmp : Grid) (ii jj : ℕ)
    (hii : ii < nx) (hjj : jj < ny) :
    propagate nx ny cells tmp (ii + jj * nx) = propagateCell nx ny cells ii jj := by
  unfold propagate
  rw [if_pos (idx_lt nx ny ii jj hii hjj)]
  have hm : (ii + jj * nx) % nx = ii := by
    rw [Nat.add_mul_mod_self_right, Nat.mod_eq_of_lt hii]
  have hd : (ii + jj * nx) / nx = jj := by
    rw [Nat.add_mul_div_right ii jj (by omega : 0 < nx), Nat.div_eq_of_lt hii]
    omega
  rw [hm, hd]

/-- Claim C1: propagate writes scratch cell `(ii, jj)` by the pull scheme —
speed 0 from the same cell, 1 from the west, 2 from the south, 3 from the
east, 4 from the north, 5 from the south-west, 6 from the south-east,
7 from the north-east, 8 from the north-west, periodic in both axes —
and the primary grid is left unchanged. -/
theorem claim_C1_propagate_pull (nx ny : ℕ) (cells tmp : Grid) (ii jj : ℕ)
    (hii : ii < nx) (hjj : jj < ny) :
    (propagate nx ny cells tmp (ii + jj * nx)).speeds 0
        = (cells (ii + jj * nx)).speeds 0 ∧
    (propagate nx ny cells tmp (ii + jj * nx)).speeds 1
        = (cells ((ii + nx - 1) % nx + jj * nx)).speeds 1 ∧
    (propagate nx ny cells tmp (ii + jj * nx)).speeds 2
        = (cells (ii + ((jj + ny - 1) % ny) * nx)).speeds 2 ∧
    (propagate nx ny cells tmp (ii + jj * nx)).speeds 3
        = (cells ((ii + 1) % nx + jj * nx)).speeds 3 ∧
    (propagate nx ny cells tmp (ii + jj * nx)).speeds 4
        = (cells (ii + ((jj + 1) % ny) * nx)).speeds 4 ∧
    (propagate nx ny cells tmp (ii + jj * nx)).speeds 5
        = (cells ((ii + nx - 1) % nx + ((jj + ny - 1) % ny) * nx)).speeds 5 ∧
    (propagate nx ny cells tmp (ii + jj * nx)).speeds 6
        = (cells ((ii + 1) % nx + ((jj + ny - 1) % ny) * nx)).speeds 6 ∧
    (propagate nx ny cells tmp (ii + jj * nx)).speeds 7
        = (cells ((ii + 1) % nx + ((jj + 1) % ny) * nx)).speeds 7 ∧
    (propagate nx ny cells tmp (ii + jj * nx)).speeds 8
        = (cells ((ii + nx - 1) % nx + ((jj + 1) % ny) * nx)).speeds 8 ∧
    (propagate_step nx ny ⟨cells, tmp⟩).cells = cells := by
  rw [propagate_at nx ny cells tmp ii jj hii hjj]
  unfold propagateCell
  rw [x_w_eq nx ii hii, y_s_eq ny jj hjj]
  unfold x_e y_n
  refine ⟨rfl, rfl, rfl, rfl, rfl, rfl, rfl, rfl, rfl, rfl⟩

/-- Example grid used by witnesses: cell `idx` has every population `idx`. -/
def exGrid : Grid := fun idx => mkSpeed idx idx idx idx idx idx idx idx idx

/-- Witness for C1 at `nx = 2`, `ny = 2`, cell `(1, 0)`. -/
theorem claim_C1_propagate_pull_witness :
    (1 < 2 ∧ 0 < 2) ∧
    ((propagate 2 2 exGrid exGrid (1 + 0 * 2)).speeds 0
        = (exGrid (1 + 0 * 2)).speeds 0 ∧
    (propagate 2 2 exGrid exGrid (1 + 0 * 2)).speeds 1
        = (exGrid ((1 + 2 - 1) % 2 + 0 * 2)).speeds 1 ∧
    (propagate 2 2 exGrid exGrid (1 + 0 * 2)).speeds 2
        = (exGrid (1 + ((0 + 2 - 1) % 2) * 2)).speeds 2 ∧
    (propagate 2 2 exGrid exGrid (1 + 0 * 2)).speeds 3
        = (exGrid ((1 + 1) % 2 + 0 * 2)).speeds 3 ∧
    (propagate 2 2 exGrid exGrid (1 + 0 * 2)).speeds 4
        = (exGrid (1 + ((0 + 1) % 2) * 2)).speeds 4 ∧
    (propagate 2 2 exGrid exGrid (1 + 0 * 2)).speeds 5
        = (exGrid ((1 + 2 - 1) % 2 + ((0 + 2 - 1) % 2) * 2)).speeds 5 ∧
    (propagate 2 2 exGrid exGrid (1 + 0 * 2)).speeds 6
        = (exGrid ((1 + 1) % 2 + ((0 + 2 - 1) % 2) * 2)).speeds 6 ∧
    (propagate 2 2 exGrid exGrid (1 + 0 * 2)).speeds 7
        = (exGrid ((1 + 1) % 2 + ((0 + 1) % 2) * 2)).speeds 7 ∧
    (propagate 2 2 exGrid exGrid (1 + 0 * 2)).speeds 8
        = (exGrid ((1 + 2 - 1) % 2 + ((0 + 1) % 2) * 2)).speeds 8 ∧
    (propagate_step 2 2 ⟨exGrid, exGrid⟩).cells = exGrid) :=
  ⟨⟨by omega, by omega⟩,
   claim_C1_propagate_pull 2 2 exGrid exGrid 1 0 (by omega) (by omega)⟩

/-- `const float c_sq = 1.f / 3.f` (collision, line 778). -/
def c_sq : ℚ := 1 / 3

/-- `const float w0 = 4.f / 9.f` (collision, line 779). -/
def cw0 : ℚ := 4 / 9

/-- `const float w1 = 1.f / 9.f` (collision, line 780). -/
def cw1 : ℚ := 1 / 9

/-- `const float w2 = 1.f / 36.f` (collision, line 781). -/
def cw2 : ℚ := 1 / 36

/-- `local_density`: the sum of a cell's nine populations (lines 795-800). -/
def local_density (c : t_speed) : ℚ :=
  c.speeds 0 + c.speeds 1 + c.speeds 2 + c.speeds 3 + c.speeds 4
    + c.speeds 5 + c.speeds 6 + c.speeds 7 + c.speeds 8

/-- `u_x` of a cell (lines 803-809; the same formula is used in
`av_velocity` and `write_values`). -/
def u_x (c : t_speed) : ℚ :=
  (c.speeds 1 + c.speeds 5 + c.speeds 8
    - (c.speeds 3 + c.speeds 6 + c.speeds 7)) / local_density c

/-- `u_y` of a cell (lines 811-817). -/
def u_y (c : t_speed) : ℚ :=
  (c.speeds 2 + c.speeds 5 + c.speeds 6
    - (c.speeds 4 + c.speeds 7 + c.speeds 8)) / local_density c

/-- `d_equ[0]` (lines 836-837); `u_sq = u_x*u_x + u_y*u_y`. -/
def d_equ0 (ld ux uy : ℚ) : ℚ :=
  cw0 * ld * (1 - (ux * ux + uy * uy) / (2 * c_sq))

/-- `d_equ[1]` (lines 839-841) with `u[1] = u_x`. -/
def d_equ1 (ld ux uy : ℚ) : ℚ :=
  cw1 * ld * (1 + ux / c_sq + (ux * ux) / (2 * c_sq * c_sq)
    - (ux * ux + uy * uy) / (2 * c_sq))

/-- `d_equ[2]` (lines 842-844) with `u[2] = u_y`. -/
def d_equ2 (ld ux uy : ℚ) : ℚ :=
  cw1 * ld * (1 + uy / c_sq + (uy * uy) / (2 * c_sq * c_sq)
    - (ux * ux + uy * uy) / (2 * c_sq))

/-- `d_equ[3]` (lines 845-847) with `u[3] = -u_x`. -/
def d_equ3 (ld ux uy : ℚ) : ℚ :=
  cw1 * ld * (1 + (-ux) / c_sq + ((-ux) * (-ux)) / (2 * c_sq * c_sq)
    - (ux * ux + uy * uy) / (2 * c_sq))

/-- `d_equ[4]` (lines 848-850) with `u[4] = -u_y`. -/
def d_equ4 (ld ux uy : ℚ) : ℚ :=
  cw1 * ld * (1 + (-uy) / c_sq + ((-uy) * (-uy)) / (2 * c_sq * c_sq)
    - (ux * ux + uy * uy) / (2 * c_sq))

/-- `d_equ[5]` (lines 852-854) with `u[5] = u_x + u_y`. -/
def d_equ5 (ld ux uy : ℚ) : ℚ :=
  cw2 * ld * (1 + (ux + uy) / c_sq + ((ux + uy) * (ux + uy)) / (2 * c_sq * c_sq)
    - (ux * ux + uy * uy) / (2 * c_sq))

/-- `d_equ[6]` (lines 855-857) with `u[6] = -u_x + u_y`. -/
def d_equ6 (ld ux uy : ℚ) : ℚ :=
  cw2 * ld * (1 + (-ux + uy) / c_sq + ((-ux + uy) * (-ux + uy)) / (2 * c_sq * c_sq)
    - (ux * ux + uy * uy) / (2 * c_sq))

/-- `d_equ[7]` (lines 858-860) with `u[7] = -u_x - u_y`. -/
def d_equ7 (ld ux uy : ℚ) : ℚ :=
  cw2 * ld * (1 + (-ux - uy) / c_sq + ((-ux - uy) * (-ux - uy)) / (2 * c_sq * c_sq)
    - (ux * ux + uy * uy) / (2 * c_sq))

/-- `d_equ[8]` (lines 861-863) with `u[8] = u_x - u_y`. -/
def d_equ8 (ld ux uy : ℚ) : ℚ :=
  cw2 * ld * (1 + (ux - uy) / c_sq + ((ux - uy) * (ux - uy)) / (2 * c_sq * c_sq)
    - (ux * ux + uy * uy) / (2 * c_sq))

/-- The relaxation step of `collision` at one fluid cell (lines 866-871):
`speeds[kk] = tmp[kk] + omega * (d_equ[kk] - tmp[kk])`. -/
def collideCell (omega : ℚ) (tc : t_speed) : t_speed :=
  mkSpeed
    (tc.speeds 0 + omega * (d_equ0 (local_density tc) (u_x tc) (u_y tc) - tc.speeds 0))
    (tc.speeds 1 + omega * (d_equ1 (local_density tc) (u_x tc) (u_y tc) - tc.speeds 1))
    (tc.speeds 2 + omega * (d_equ2 (local_density tc) (u_x tc) (u_y tc) - tc.speeds 2))
    (tc.speeds 3 + omega * (d_equ3 (local_density tc) (u_x tc) (u_y tc) - tc.speeds 3))
    (tc.speeds 4 + omega * (d_equ4 (local_density tc) (u_x tc) (u_y tc) - tc.speeds 4))
    (tc.speeds 5 + omega * (d_equ5 (local_density tc) (u_x tc) (u_y tc) - tc.speeds 5))
    (tc.speeds 6 + omega * (d_equ6 (local_density tc) (u_x tc) (u_y tc) - tc.speeds 6))
    (tc.speeds 7 + omega * (d_equ7 (local_density tc) (u_x tc) (u_y tc) - tc.speeds 7))
    (tc.speeds 8 + omega * (d_equ8 (local_density tc) (u_x tc) (u_y tc) - tc.speeds 8))

/-- `collision`: fluid cells (`!obstacles[ii + jj*nx]`) of the primary grid
are written with the relaxed scratch cell; obstacle cells keep their
primary values (lines 787-874). -/
def collision (nx ny : ℕ) (omega : ℚ) (cells tmp : Grid) (obst : ℕ → Bool) : Grid :=
  fun idx =>
    if idx < nx * ny ∧ obst idx = false then collideCell omega (tmp idx)
    else cells idx

/-- The nine equilibrium populations sum to the density, for any density
and any velocity components. -/
theorem d_equ_total (ld ux uy : ℚ) :
    d_equ0 ld ux uy + d_equ1 ld ux uy + d_equ2 ld ux uy + d_equ3 ld ux uy
      + d_equ4 ld ux uy + d_equ5 ld ux uy + d_equ6 ld ux uy + d_equ7 ld ux uy
      + d_equ8 ld ux uy = ld := by
  simp only [d_equ0, d_equ1, d_equ2, d_equ3, d_equ4, d_equ5, d_equ6, d_equ7,
    d_equ8, cw0, cw1, cw2, c_sq]
  ring

/-- Claim C4: for the density and velocity computed in collide at a cell
with positive density, the nine equilibrium populations sum exactly to
the density. -/
theorem claim_C4_d_equ_sum (c : t_speed) (h : 0 < local_density c) :
    d_equ0 (local_density c) (u_x c) (u_y c)
      + d_equ1 (local_density c) (u_x c) (u_y c)
      + d_equ2 (local_density c) (u_x c) (u_y c)
      + d_equ3 (local_density c) (u_x c) (u_y c)
      + d_equ4 (local_density c) (u_x c) (u_y c)
      + d_equ5 (local_density c) (u_x c) (u_y c)
      + d_equ6 (local_density c) (u_x c) (u_y c)
      + d_equ7 (local_density c) (u_x c) (u_y c)
      + d_equ8 (local_density c) (u_x c) (u_y c) = local_density c :=
  d_equ_total (local_density c) (u_x c) (u_y c)

/-- The rest-equilibrium cell used by `initialise` (lines 505-534):
`w0 = density * 4/9` at speed 0, `w1 = density/9` at speeds 1-4,
`w2 = density/36` at speeds 5-8. -/
def restCell (density : ℚ) : t_speed :=
  mkSpeed (density * 4 / 9)
    (density / 9) (density / 9) (density / 9) (density / 9)
    (density / 36) (density / 36) (density / 36) (density / 36)

/-- Witness for C4 at the rest cell of density 1. -/
theorem claim_C4_d_equ_sum_witness :
    0 < local_density (restCell 1) ∧
    d_equ0 (local_density (restCell 1)) (u_x (restCell 1)) (u_y (restCell 1))
      + d_equ1 (local_density (restCell 1)) (u_x (restCell 1)) (u_y (restCell 1))
      + d_equ2 (local_density (restCell 1)) (u_x (restCell 1)) (u_y (restCell 1))
      + d_equ3 (local_density (restCell 1)) (u_x (restCell 1)) (u_y (restCell 1))
      + d_equ4 (local_density (restCell 1)) (u_x (restCell 1)) (u_y (restCell 1))
      + d_equ5 (local_density (restCell 1)) (u_x (restCell 1)) (u_y (restCell 1))
      + d_equ6 (local_density (restCell 1)) (u_x (restCell 1)) (u_y (restCell 1))
      + d_equ7 (local_density (restCell 1)) (u_x (restCell 1)) (u_y (restCell 1))
      + d_equ8 (local_density (restCell 1)) (u_x (restCell 1)) (u_y (restCell 1))
      = local_density (restCell 1) :=
  ⟨by norm_num [local_density, restCell],
   claim_C4_d_equ_sum (restCell 1) (by norm_num [local_density, restCell])⟩

/-- The cell that `rebound` writes at an obstacle cell of the primary grid
(lines 761-768): opposite-direction populations of the scratch cell;
speed 0 keeps the primary value (it is not assigned). -/
def reboundCell (tmp_c old : t_speed) : t_speed :=
  mkSpeed (old.speeds 0)
    (tmp_c.speeds 3) (tmp_c.speeds 4) (tmp_c.speeds 1) (tmp_c.speeds 2)
    (tmp_c.speeds 7) (tmp_c.speeds 8) (tmp_c.speeds 5) (tmp_c.speeds 6)

/-- `rebound` (lines 749-774): only obstacle cells of the primary grid are
written (the source tests `obstacles[jj*nx + ii]`, which is the same
index as `ii + jj*nx`). -/
def rebound (nx ny : ℕ) (cells tmp : Grid) (obst : ℕ → Bool) : Grid :=
  fun idx =>
    if idx < nx * ny ∧ obst idx = true then reboundCell (tmp idx) (cells idx)
    else cells idx

/-- One cell of `accelerate_flow` (lines 695-713): applied to index
`idx = ii + jj*nx` with `jj = ny - 2`; with `w1 = density*accel/9` and
`w2 = density*accel/36`, east-bound speeds 1, 5, 8 gain `w1`/`w2` and
west-bound speeds 3, 6, 7 lose the same, guarded by non-obstacle and
positivity of the decremented populations. -/
def accelPoint (density accel : ℚ) (obst : Bool) (c : t_speed) : t_speed :=
  if obst = false
      ∧ 0 < c.speeds 3 - density * accel / 9
      ∧ 0 < c.speeds 6 - density * accel / 36
      ∧ 0 < c.speeds 7 - density * accel / 36 then
    mkSpeed (c.speeds 0)
      (c.speeds 1 + density * accel / 9)
      (c.speeds 2)
      (c.speeds 3 - density * accel / 9)
      (c.speeds 4)
      (c.speeds 5 + density * accel / 36)
      (c.speeds 6 - density * accel / 36)
      (c.speeds 7 - density * accel / 36)
      (c.speeds 8 + density * accel / 36)
  else c

/-- `accelerate_flow` (lines 686-716): the loop runs over the single row
`jj = params.ny - 2`, writing indices `ii + jj*nx` for `ii < nx`. -/
def accelerate (nx ny : ℕ) (density accel : ℚ) (cells : Grid)
    (obst : ℕ → Bool) : Grid :=
  fun idx =>
    if (ny - 2) * nx ≤ idx ∧ idx < (ny - 2) * nx + nx then
      accelPoint density accel (obst idx) (cells idx)
    else cells idx

/-- Total of all populations over the whole `ny × nx` cell range of a grid. -/
def totalSum (nx ny : ℕ) (g : Grid) : ℚ :=
  ∑ jj ∈ Finset.range ny, ∑ ii ∈ Finset.range nx, local_density (g (ii + jj * nx))

/-- Total of all populations over the fluid (non-obstacle) cells of a grid. -/
def fluidSum (nx ny : ℕ) (obst : ℕ → Bool) (g : Grid) : ℚ :=
  ∑ jj ∈ Finset.range ny, ∑ ii ∈ Finset.range nx,
    if obst (ii + jj * nx) = true then 0 else local_density (g (ii + jj * nx))

theorem sum_rot (n : ℕ) (f : ℕ → ℚ) :
    ∑ i ∈ Finset.range (n + 1), f ((i + 1) % (n + 1))
      = ∑ i ∈ Finset.range (n + 1), f i := by
  rw [Finset.sum_range_succ, Finset.sum_range_succ' (fun i => f i) n]
  have h1 : ∀ i ∈ Finset.range n, f ((i + 1) % (n + 1)) = f (i + 1) := by
    intro i hi
    have hlt := Finset.mem_range.mp hi
    rw [Nat.mod_eq_of_lt (by omega)]
  rw [Finset.sum_congr rfl h1, Nat.mod_self]

theorem sum_shift (n : ℕ) (hn : 0 < n) (c : ℕ) (f : ℕ → ℚ) :
    ∑ i ∈ Finset.range n, f ((i + c) % n) = ∑ i ∈ Finset.range n, f i := by
  obtain ⟨m, rfl⟩ : ∃ m, n = m + 1 := ⟨n - 1, by omega⟩
  induction c with
  | zero =>
    refine Finset.sum_congr rfl (fun i hi => ?_)
    simp only [Nat.add_zero]
    rw [Nat.mod_eq_of_lt (Finset.mem_range.mp hi)]
  | succ c ih =>
    have h1 : ∀ i ∈ Finset.range (m + 1),
        f ((i + (c + 1)) % (m + 1)) = f (((i + 1) % (m + 1) + c) % (m + 1)) := by
      intro i _
      congr 1
      conv_lhs => rw [show i + (c + 1) = (i + 1) + c by omega]
      rw [Nat.add_mod (i + 1) c, Nat.add_mod ((i + 1) % (m + 1)) c,
        Nat.mod_mod_of_dvd (i + 1) (dvd_refl (m + 1))]
    calc ∑ i ∈ Finset.range (m + 1), f ((i + (c + 1)) % (m + 1))
        = ∑ i ∈ Finset.range (m + 1), (fun j => f ((j + c) % (m + 1))) ((i + 1) % (m + 1)) :=
          Finset.sum_congr rfl h1
      _ = ∑ i ∈ Finset.range (m + 1), (fun j => f ((j + c) % (m + 1))) i :=
          sum_rot m (fun j => f ((j + c) % (m + 1)))
      _ = ∑ i ∈ Finset.range (m + 1), f i := ih

theorem double_shift (nx ny : ℕ) (hx : 0 < nx) (hy : 0 < ny) (a b : ℕ) (f : ℕ → ℚ) :
    ∑ jj ∈ Finset.range ny, ∑ ii ∈ Finset.range nx,
        f ((ii + a) % nx + ((jj + b) % ny) * nx)
      = ∑ jj ∈ Finset.range ny, ∑ ii ∈ Finset.range nx, f (ii + jj * nx) := by
  calc ∑ jj ∈ Finset.range ny, ∑ ii ∈ Finset.range nx,
        f ((ii + a) % nx + ((jj + b) % ny) * nx)
      = ∑ jj ∈ Finset.range ny, ∑ ii ∈ Finset.range nx,
          f (ii + ((jj + b) % ny) * nx) :=
        Finset.sum_congr rfl (fun jj _ =>
          sum_shift nx hx a (fun i => f (i + ((jj + b) % ny) * nx)))
    _ = ∑ jj ∈ Finset.range ny, ∑ ii ∈ Finset.range nx, f (ii + jj * nx) :=
        sum_shift ny hy b (fun j => ∑ ii ∈ Finset.range nx, f (ii + j * nx))

/-- Propagate is a permutation of population slots: the total over the
whole grid range is preserved. -/
theorem propagate_mass (nx ny : ℕ) (hx : 0 < nx) (hy : 0 < ny) (cells tmp : Grid) :
    totalSum nx ny (propagate nx ny cells tmp) = totalSum nx ny cells := by
  unfold totalSum
  have hstep : ∀ jj ∈ Finset.range ny, ∀ ii ∈ Finset.range nx,
      local_density (propagate nx ny cells tmp (ii + jj * nx))
        = (cells (ii + jj * nx)).speeds 0
          + (cells ((ii + (nx - 1)) % nx + jj * nx)).speeds 1
          + (cells (ii + ((jj + (ny - 1)) % ny) * nx)).speeds 2
          + (cells ((ii + 1) % nx + jj * nx)).speeds 3
          + (cells (ii + ((jj + 1) % ny) * nx)).speeds 4
          + (cells ((ii + (nx - 1)) % nx + ((jj + (ny - 1)) % ny) * nx)).speeds 5
          + (cells ((ii + 1) % nx + ((jj + (ny - 1)) % ny) * nx)).speeds 6
          + (cells ((ii + 1) % nx + ((jj + 1) % ny) * nx)).speeds 7
          + (cells ((ii + (nx - 1)) % nx + ((jj + 1) % ny) * nx)).speeds 8 := by
    intro jj hjj ii hii
    have hii' := Finset.mem_range.mp hii
    have hjj' := Finset.mem_range.mp hjj
    rw [propagate_at nx ny cells tmp ii jj hii' hjj']
    have hxw : x_w nx ii = (ii + (nx - 1)) % nx := by
      rw [x_w_eq nx ii hii']
      congr 1
      omega
    have hys : y_s ny jj = (jj + (ny - 1)) % ny := by
      rw [y_s_eq ny jj hjj']
      congr 1
      omega
    unfold propagateCell
    rw [hxw, hys]
    unfold x_e y_n local_density
    simp only [mkSpeed_s0, mkSpeed_s1, mkSpeed_s2, mkSpeed_s3, mkSpeed_s4,
      mkSpeed_s5, mkSpeed_s6, mkSpeed_s7, mkSpeed_s8]
  rw [Finset.sum_congr rfl
    (fun jj hjj => Finset.sum_congr rfl (fun ii hii => hstep jj hjj ii hii))]
  simp only [local_density, Finset.sum_add_distrib]
  have e1 : ∑ jj ∈ Finset.range ny, ∑ ii ∈ Finset.range nx,
      (cells ((ii + (nx - 1)) % nx + jj * nx)).speeds 1
      = ∑ jj ∈ Finset.range ny, ∑ ii ∈ Finset.range nx,
        (cells (ii + jj * nx)).speeds 1 :=
    Finset.sum_congr rfl (fun jj _ =>
      sum_shift nx hx (nx - 1) (fun i => (cells (i + jj * nx)).speeds 1))
  have e2 : ∑ jj ∈ Finset.range ny, ∑ ii ∈ Finset.range nx,
      (cells (ii + ((jj + (ny - 1)) % ny) * nx)).speeds 2
      = ∑ jj ∈ Finset.range ny, ∑ ii ∈ Finset.range nx,
        (cells (ii + jj * nx)).speeds 2 :=
    sum_shift ny hy (ny - 1)
      (fun j => ∑ ii ∈ Finset.range nx, (cells (ii + j * nx)).speeds 2)
  have e3 : ∑ jj ∈ Finset.range ny, ∑ ii ∈ Finset.range nx,
      (cells ((ii + 1) % nx + jj * nx)).speeds 3
      = ∑ jj ∈ Finset.range ny, ∑ ii ∈ Finset.range nx,
        (cells (ii + jj * nx)).speeds 3 :=
    Finset.sum_congr rfl (fun jj _ =>
      sum_shift nx hx 1 (fun i => (cells (i + jj * nx)).speeds 3))
  have e4 : ∑ jj ∈ Finset.range ny, ∑ ii ∈ Finset.range nx,
      (cells (ii + ((jj + 1) % ny) * nx)).speeds 4
      = ∑ jj ∈ Finset.range ny, ∑ ii ∈ Finset.range nx,
        (cells (ii + jj * nx)).speeds 4 :=
    sum_shift ny hy 1
      (fun j => ∑ ii ∈ Finset.range nx, (cells (ii + j * nx)).speeds 4)
  have e5 : ∑ jj ∈ Finset.range ny, ∑ ii ∈ Finset.range nx,
      (cells ((ii + (nx - 1)) % nx + ((jj + (ny - 1)) % ny) * nx)).speeds 5
      = ∑ jj ∈ Finset.range ny, ∑ ii ∈ Finset.range nx,
        (cells (ii + jj * nx)).speeds 5 :=
    double_shift nx ny hx hy (nx - 1) (ny - 1) (fun i => (cells i).speeds 5)
  have e6 : ∑ jj ∈ Finset.range ny, ∑ ii ∈ Finset.range nx,
      (cells ((ii + 1) % nx + ((jj + (ny - 1)) % ny) * nx)).speeds 6
      = ∑ jj ∈ Finset.range ny, ∑ ii ∈ Finset.range nx,
        (cells (ii + jj * nx)).speeds 6 :=
    double_shift nx ny hx hy 1 (ny - 1) (fun i => (cells i).speeds 6)
  have e7 : ∑ jj ∈ Finset.range ny, ∑ ii ∈ Finset.range nx,
      (cells ((ii + 1) % nx + ((jj + 1) % ny) * nx)).speeds 7
      = ∑ jj ∈ Finset.range ny, ∑ ii ∈ Finset.range nx,
        (cells (ii + jj * nx)).speeds 7 :=
    double_shift nx ny hx hy 1 1 (fun i => (cells i).speeds 7)
  have e8 : ∑ jj ∈ Finset.range ny, ∑ ii ∈ Finset.range nx,
      (cells ((ii + (nx - 1)) % nx + ((jj + 1) % ny) * nx)).speeds 8
      = ∑ jj ∈ Finset.range ny, ∑ ii ∈ Finset.range nx,
        (cells (ii + jj * nx)).speeds 8 :=
    double_shift nx ny hx hy (nx - 1) 1 (fun i => (cells i).speeds 8)
  rw [e1, e2, e3, e4, e5, e6, e7, e8]

/-- The BGK relaxation preserves the nine-population sum of a cell. -/
theorem collideCell_mass (omega : ℚ) (tc : t_speed) :
    local_density (collideCell omega tc) = local_density tc := by
  have key := d_equ_total (local_density tc) (u_x tc) (u_y tc)
  simp only [local_density] at key
  simp only [collideCell, local_density, mkSpeed_s0, mkSpeed_s1, mkSpeed_s2,
    mkSpeed_s3, mkSpeed_s4, mkSpeed_s5, mkSpeed_s6, mkSpeed_s7, mkSpeed_s8]
  linear_combination omega * key

/-- Rebound writes only obstacle cells of the primary grid, so the total
over fluid cells of the primary grid is untouched. -/
theorem rebound_fluid (nx ny : ℕ) (cells tmp : Grid) (obst : ℕ → Bool) :
    fluidSum nx ny obst (rebound nx ny cells tmp obst) = fluidSum nx ny obst cells := by
  unfold fluidSum
  refine Finset.sum_congr rfl (fun jj _ => Finset.sum_congr rfl (fun ii _ => ?_))
  by_cases hobs : obst (ii + jj * nx) = true
  · rw [if_pos hobs, if_pos hobs]
  · rw [if_neg hobs, if_neg hobs]
    congr 1
    unfold rebound
    rw [if_neg]
    intro hcontra
    exact hobs hcontra.2

/-- The guarded acceleration update preserves the cell's population sum. -/
theorem accelPoint_mass (density accel : ℚ) (obst : Bool) (c : t_speed) :
    local_density (accelPoint density accel obst c) = local_density c := by
  unfold accelPoint
  split
  · simp only [local_density, mkSpeed_s0, mkSpeed_s1, mkSpeed_s2, mkSpeed_s3,
      mkSpeed_s4, mkSpeed_s5, mkSpeed_s6, mkSpeed_s7, mkSpeed_s8]
    ring
  · rfl

theorem collision_at_fluid (nx ny : ℕ) (omega : ℚ) (cells tmp : Grid)
    (obst : ℕ → Bool) (ii jj : ℕ) (hii : ii < nx) (hjj : jj < ny)
    (hfl : obst (ii + jj * nx) = false) :
    collision nx ny omega cells tmp obst (ii + jj * nx)
      = collideCell omega (tmp (ii + jj * nx)) := by
  unfold collision
  rw [if_pos ⟨idx_lt nx ny ii jj hii hjj, hfl⟩]

/-- Claim C3, amended: in exact arithmetic, propagate preserves the total
over ALL cells (over fluid cells only it can fail, see the counterexample);
rebound leaves every fluid cell of the primary grid unchanged, hence the
fluid total; collide writes each fluid cell with the same nine-population
sum as the scratch cell it reads; accelerate changes only cells of the
driven row `ny - 2` and preserves each cell's nine-population sum, adding
`w1 + 2*w2` to the east-bound speeds and subtracting the same from the
west-bound speeds when its guard holds. -/
theorem claim_C3_mass_conservation (nx ny : ℕ) (cells tmp : Grid)
    (obst : ℕ → Bool) (density accel omega : ℚ) (ii jj idx idx2 : ℕ)
    (hx : 0 < nx) (hy : 0 < ny)
    (hii : ii < nx) (hjj : jj < ny) (hfl : obst (ii + jj * nx) = false)
    (hidx : ¬((ny - 2) * nx ≤ idx ∧ idx < (ny - 2) * nx + nx))
    (hdrv : (ny - 2) * nx ≤ idx2 ∧ idx2 < (ny - 2) * nx + nx)
    (hg : obst idx2 = false
      ∧ 0 < (cells idx2).speeds 3 - density * accel / 9
      ∧ 0 < (cells idx2).speeds 6 - density * accel / 36
      ∧ 0 < (cells idx2).speeds 7 - density * accel / 36) :
    totalSum nx ny (propagate nx ny cells tmp) = totalSum nx ny cells ∧
    fluidSum nx ny obst (rebound nx ny cells tmp obst)
      = fluidSum nx ny obst cells ∧
    local_density (collision nx ny omega cells tmp obst (ii + jj * nx))
      = local_density (tmp (ii + jj * nx)) ∧
    accelerate nx ny density accel cells obst idx = cells idx ∧
    local_density (accelerate nx ny density accel cells obst idx2)
      = local_density (cells idx2) ∧
    (accelerate nx ny density accel cells obst idx2).speeds 1
        + (accelerate nx ny density accel cells obst idx2).speeds 5
        + (accelerate nx ny density accel cells obst idx2).speeds 8
      = (cells idx2).speeds 1 + (cells idx2).speeds 5 + (cells idx2).speeds 8
        + (density * accel / 9 + 2 * (density * accel / 36)) ∧
    (accelerate nx ny density accel cells obst idx2).speeds 3
        + (accelerate nx ny density accel cells obst idx2).speeds 6
        + (accelerate nx ny density accel cells obst idx2).speeds 7
      = (cells idx2).speeds 3 + (cells idx2).speeds 6 + (cells idx2).speeds 7
        - (density * accel / 9 + 2 * (density * accel / 36)) := by
  have hacc : accelerate nx ny density accel cells obst idx2
      = accelPoint density accel (obst idx2) (cells idx2) := by
    unfold accelerate
    rw [if_pos hdrv]
  have haccg : accelPoint density accel (obst idx2) (cells idx2)
      = mkSpeed ((cells idx2).speeds 0)
          ((cells idx2).speeds 1 + density * accel / 9)
          ((cells idx2).speeds 2)
          ((cells idx2).speeds 3 - density * accel / 9)
          ((cells idx2).speeds 4)
          ((cells idx2).speeds 5 + density * accel / 36)
          ((cells idx2).speeds 6 - density * accel / 36)
          ((cells idx2).speeds 7 - density * accel / 36)
          ((cells idx2).speeds 8 + density * accel / 36) := by
    unfold accelPoint
    rw [if_pos hg]
  refine ⟨propagate_mass nx ny hx hy cells tmp,
    rebound_fluid nx ny cells tmp obst,
    ?_, ?_, ?_, ?_, ?_⟩
  · rw [collision_at_fluid nx ny omega cells tmp obst ii jj hii hjj hfl]
    exact collideCell_mass omega (tmp (ii + jj * nx))
  · unfold accelerate
    rw [if_neg hidx]
  · rw [hacc]
    exact accelPoint_mass density accel (obst idx2) (cells idx2)
  · rw [hacc, haccg]
    simp only [mkSpeed_s1, mkSpeed_s5, mkSpeed_s8]
    ring
  · rw [hacc, haccg]
    simp only [mkSpeed_s3, mkSpeed_s6, mkSpeed_s7]
    ring

/-- Primary grid of the C3 counterexample: on a `1 × 2` grid, the fluid
cell `(0, 0)` carries one unit of the north-bound population 2; the
obstacle cell `(0, 1)` is empty. -/
def c3Cells : Grid := fun idx =>
  if idx = 0 then mkSpeed 0 0 1 0 0 0 0 0 0 else mkSpeed 0 0 0 0 0 0 0 0 0

/-- Obstacle mask of the C3 counterexample: cell `(0, 1)` is solid. -/
def c3Obst : ℕ → Bool := fun idx => idx == 1

/-- Counterexample to C3 as stated: propagate does NOT preserve the sum of
populations over fluid cells — on a `1 × 2` grid with an obstacle at
`(0, 1)`, the unit of north-bound density streams from the fluid cell into
the obstacle cell, so the fluid total drops from 1 to 0. -/
theorem claim_C3_mass_counterexample :
    fluidSum 1 2 c3Obst (propagate 1 2 c3Cells c3Cells)
      ≠ fluidSum 1 2 c3Obst c3Cells := by
  norm_num [fluidSum, propagate, propagateCell, local_density, c3Cells, c3Obst,
    x_w, x_e, y_s, y_n, Finset.sum_range_succ]

/-- Witness grid: every cell at rest equilibrium of density 1. -/
def exRest : Grid := fun _ => restCell 1

/-- Witness obstacle mask: no obstacles. -/
def exNoObst : ℕ → Bool := fun _ => false

/-- Witness for the amended C3 at `nx = ny = 1`, `density = 1`,
`accel = 1/2`, `omega = 1`. -/
theorem claim_C3_mass_conservation_witness :
    ((0:ℕ) < 1 ∧ (0:ℕ) < 1 ∧ exNoObst (0 + 0 * 1) = false
      ∧ ¬((1 - 2) * 1 ≤ 1 ∧ 1 < (1 - 2) * 1 + 1)
      ∧ ((1 - 2) * 1 ≤ 0 ∧ 0 < (1 - 2) * 1 + 1)
      ∧ (exNoObst 0 = false
        ∧ 0 < (exRest 0).speeds 3 - 1 * (1 / 2) / 9
        ∧ 0 < (exRest 0).speeds 6 - 1 * (1 / 2) / 36
        ∧ 0 < (exRest 0).speeds 7 - 1 * (1 / 2) / 36)) ∧
    (totalSum 1 1 (propagate 1 1 exRest exRest) = totalSum 1 1 exRest ∧
    fluidSum 1 1 exNoObst (rebound 1 1 exRest exRest exNoObst)
      = fluidSum 1 1 exNoObst exRest ∧
    local_density (collision 1 1 1 exRest exRest exNoObst (0 + 0 * 1))
      = local_density (exRest (0 + 0 * 1)) ∧
    accelerate 1 1 1 (1 / 2) exRest exNoObst 1 = exRest 1 ∧
    local_density (accelerate 1 1 1 (1 / 2) exRest exNoObst 0)
      = local_density (exRest 0) ∧
    (accelerate 1 1 1 (1 / 2) exRest exNoObst 0).speeds 1
        + (accelerate 1 1 1 (1 / 2) exRest exNoObst 0).speeds 5
        + (accelerate 1 1 1 (1 / 2) exRest exNoObst 0).speeds 8
      = (exRest 0).speeds 1 + (exRest 0).speeds 5 + (exRest 0).speeds 8
        + (1 * (1 / 2) / 9 + 2 * (1 * (1 / 2) / 36)) ∧
    (accelerate 1 1 1 (1 / 2) exRest exNoObst 0).speeds 3
        + (accelerate 1 1 1 (1 / 2) exRest exNoObst 0).speeds 6
        + (accelerate 1 1 1 (1 / 2) exRest exNoObst 0).speeds 7
      = (exRest 0).speeds 3 + (exRest 0).speeds 6 + (exRest 0).speeds 7
        - (1 * (1 / 2) / 9 + 2 * (1 * (1 / 2) / 36))) :=
  ⟨⟨by omega, by omega, rfl, by omega, by omega,
    ⟨rfl, by norm_num [exRest, restCell], by norm_num [exRest, restCell],
     by norm_num [exRest, restCell]⟩⟩,
   claim_C3_mass_conservation 1 1 exRest exRest exNoObst 1 (1 / 2) 1 0 0 1 0
     (by omega) (by omega) (by omega) (by omega) rfl (by omega) (by omega)
     ⟨rfl, by norm_num [exRest, restCell], by norm_num [exRest, restCell],
      by norm_num [exRest, restCell]⟩⟩

/-- The density-initialisation loop of `initialise` (lines 512-536): rows
`jj ∈ [1, local_ny]` — indices `[nx, (local_ny+1)*nx)` — are set to the
rest equilibrium; all other indices keep the prior (freshly allocated,
never written) contents `pre`. -/
def init_cells (nx local_ny : ℕ) (density : ℚ) (pre : Grid) : Grid :=
  fun idx =>
    if nx ≤ idx ∧ idx < (local_ny + 1) * nx then restCell density else pre idx

/-- A possible content of the freshly `malloc`-ed grid: all populations 7. -/
def c5Pre : Grid := fun _ => mkSpeed 7 7 7 7 7 7 7 7 7

/-- Counterexample to C5 as stated: the ghost rows are NOT zeroed — the
grid is allocated with `malloc` and rows 0 and `local_ny+1` are never
written, so a ghost cell keeps its prior contents (here 7, not 0). -/
theorem claim_C5_init_counterexample :
    (init_cells 1 1 1 c5Pre (0 + 0 * 1)).speeds 2 = 7 ∧ (7 : ℚ) ≠ 0 := by
  constructor
  · norm_num [init_cells, c5Pre]
  · norm_num

/-- Claim C5, amended: after `initialise`, every interior row
`jj ∈ [1, local_ny]` holds the rest equilibrium at density ρ₀ (speed 0 =
ρ₀·4/9, speeds 1-4 = ρ₀/9, speeds 5-8 = ρ₀/36); the two ghost rows are
not written at all, so they retain whatever the allocation held. -/
theorem claim_C5_init_state (nx local_ny : ℕ) (density : ℚ) (pre : Grid)
    (ii jj : ℕ) (hii : ii < nx) (hjj1 : 1 ≤ jj) (hjj2 : jj ≤ local_ny) :
    (init_cells nx local_ny density pre (ii + jj * nx)).speeds 0 = density * 4 / 9 ∧
    (init_cells nx local_ny density pre (ii + jj * nx)).speeds 1 = density / 9 ∧
    (init_cells nx local_ny density pre (ii + jj * nx)).speeds 2 = density / 9 ∧
    (init_cells nx local_ny density pre (ii + jj * nx)).speeds 3 = density / 9 ∧
    (init_cells nx local_ny density pre (ii + jj * nx)).speeds 4 = density / 9 ∧
    (init_cells nx local_ny density pre (ii + jj * nx)).speeds 5 = density / 36 ∧
    (init_cells nx local_ny density pre (ii + jj * nx)).speeds 6 = density / 36 ∧
    (init_cells nx local_ny density pre (ii + jj * nx)).speeds 7 = density / 36 ∧
    (init_cells nx local_ny density pre (ii + jj * nx)).speeds 8 = density / 36 ∧
    init_cells nx local_ny density pre (ii + 0 * nx) = pre (ii + 0 * nx) ∧
    init_cells nx local_ny density pre (ii + (local_ny + 1) * nx)
      = pre (ii + (local_ny + 1) * nx) := by
  have hin : nx ≤ ii + jj * nx ∧ ii + jj * nx < (local_ny + 1) * nx := by
    have h0 : (jj + 1) * nx = jj * nx + nx := by ring
    have h2 : (jj + 1) * nx ≤ (local_ny + 1) * nx :=
      Nat.mul_le_mul_right nx (by omega)
    have h3 : 1 * nx ≤ jj * nx := Nat.mul_le_mul_right nx hjj1
    omega
  have hint : init_cells nx local_ny density pre (ii + jj * nx) = restCell density := by
    unfold init_cells
    rw [if_pos hin]
  have hg0 : init_cells nx local_ny density pre (ii + 0 * nx) = pre (ii + 0 * nx) := by
    unfold init_cells
    rw [if_neg (by omega)]
  have hgt : init_cells nx local_ny density pre (ii + (local_ny + 1) * nx)
      = pre (ii + (local_ny + 1) * nx) := by
    unfold init_cells
    rw [if_neg (by omega)]
  rw [hint, hg0, hgt]
  exact ⟨rfl, rfl, rfl, rfl, rfl, rfl, rfl, rfl, rfl, rfl, rfl⟩

/-- Witness for the amended C5 at `nx = 1`, `local_ny = 1`, row 1. -/
theorem claim_C5_init_state_witness :
    ((0:ℕ) < 1 ∧ (1:ℕ) ≤ 1 ∧ (1:ℕ) ≤ 1) ∧
    ((init_cells 1 1 1 exGrid (0 + 1 * 1)).speeds 0 = 1 * 4 / 9 ∧
    (init_cells 1 1 1 exGrid (0 + 1 * 1)).speeds 1 = 1 / 9 ∧
    (init_cells 1 1 1 exGrid (0 + 1 * 1)).speeds 2 = 1 / 9 ∧
    (init_cells 1 1 1 exGrid (0 + 1 * 1)).speeds 3 = 1 / 9 ∧
    (init_cells 1 1 1 exGrid (0 + 1 * 1)).speeds 4 = 1 / 9 ∧
    (init_cells 1 1 1 exGrid (0 + 1 * 1)).speeds 5 = 1 / 36 ∧
    (init_cells 1 1 1 exGrid (0 + 1 * 1)).speeds 6 = 1 / 36 ∧
    (init_cells 1 1 1 exGrid (0 + 1 * 1)).speeds 7 = 1 / 36 ∧
    (init_cells 1 1 1 exGrid (0 + 1 * 1)).speeds 8 = 1 / 36 ∧
    init_cells 1 1 1 exGrid (0 + 0 * 1) = exGrid (0 + 0 * 1) ∧
    init_cells 1 1 1 exGrid (0 + (1 + 1) * 1) = exGrid (0 + (1 + 1) * 1)) :=
  ⟨⟨by omega, by omega, by omega⟩,
   claim_C5_init_state 1 1 1 exGrid 0 1 (by omega) (by omega) (by omega)⟩

/-- The substeps invoked by the code per main-loop iteration: `timestep`
(line 677) calls `accelerate_flow`, `propagate`, `rebound`, `collision`
in order, and `main` (lines 291-292) then calls `av_velocity`. -/
inductive Substep where
  | accelerateS
  | haloExchangeS
  | propagateS
  | reboundS
  | collideS
  | averageS
deriving DecidableEq

/-- The call sequence of `timestep` (lines 677-684). -/
def timestepCalls : List Substep :=
  [Substep.accelerateS, Substep.propagateS, Substep.reboundS, Substep.collideS]

/-- The call sequence of one main-loop iteration (lines 291-292):
`timestep` followed by `av_velocity`. -/
def iterationCalls : List Substep := timestepCalls ++ [Substep.averageS]

/-- Claim C2 fails on the code: no halo exchange occurs anywhere in an
iteration (the halo buffers are allocated but never used; the exchange
described in the source comments at lines 300-308 is never implemented),
so no halo exchange precedes propagate. -/
theorem claim_C2_no_halo_exchange :
    Substep.haloExchangeS ∉ iterationCalls ∧
    iterationCalls = [Substep.accelerateS, Substep.propagateS,
      Substep.reboundS, Substep.collideS, Substep.averageS] := by
  constructor
  · decide
  · rfl

/-- The local-obstacle assignment loop of `initialise` (lines 635-641):
`obstacles[ii + jj*nx] = obstacles_total[ii + jj*nx]` for `jj < local_ny`,
with NO rank offset — every rank receives global rows `[0, local_ny)`.
Indices outside the written range keep the prior allocation contents. -/
def localObstacles (nx local_ny : ℕ) (total : ℕ → Bool) (pre : ℕ → Bool) :
    ℕ → Bool :=
  fun idx => if idx < local_ny * nx then total idx else pre idx

/-- Modelled from the spec (§4.B): rank `r`'s local mask should be the
subarray of the global mask covering global rows
`[r·local_ny, (r+1)·local_ny)`, i.e. `local[ii + jj*nx] =
total[ii + (jj + r·local_ny)*nx]`. -/
def slabObstaclesSpec (rank nx local_ny : ℕ) (total : ℕ → Bool) : ℕ → Bool :=
  fun idx => total (idx + rank * local_ny * nx)

/-- Global obstacle mask for the C6 evaluation: only global cell `(0, 1)`
is blocked (`nx = 1`, `ny = 2`, two ranks, `local_ny = 1`). -/
def c6Total : ℕ → Bool := fun idx => idx == 1

/-- Claim C6 fails on the code: with two ranks, `local_ny = 1`, `nx = 1`
and the single obstacle at global row 1, rank 1's local mask per the
claim holds the obstacle at local cell 0, but the code's local mask
(which copies rows `[0, local_ny)` for every rank) holds false there. -/
theorem claim_C6_local_mask_divergence :
    localObstacles 1 1 c6Total (fun _ => false) 0 = false ∧
    slabObstaclesSpec 1 1 1 c6Total 0 = true := by
  constructor
  · decide
  · decide

/-- The obstacle-flag field of a `final_state.dat` line (line 1015):
the source prints `obstacles[ii * params.nx + jj]` — a transposed index. -/
def write_obstacle_flag (nx : ℕ) (obst : ℕ → Bool) (ii jj : ℕ) : Bool :=
  obst (ii * nx + jj)

/-- Obstacle mask for the C8 evaluation: only cell `(1, 0)` (index 1) is
blocked on a `2 × 2` grid. -/
def c8Obst : ℕ → Bool := fun idx => idx == 1

/-- Claim C8 fails on the code: for cell `(ii, jj) = (1, 0)` of a `2 × 2`
grid the printed flag is `obstacles[1*2 + 0] = obstacles[2] = false`,
while the obstacle mask entry of that cell, `obstacles[1 + 0*2]`, is true. -/
theorem claim_C8_flag_divergence :
    write_obstacle_flag 2 c8Obst 1 0 = false ∧ c8Obst (1 + 0 * 2) = true := by
  constructor
  · decide
  · decide

/-- The `t_param` record (lines 79-88). -/
structure t_param where
  nx : ℤ
  ny : ℤ
  maxIters : ℤ
  reynolds_dim : ℤ
  density : ℚ
  accel : ℚ
  omega : ℚ

/-- Outcome of the seven `fscanf` calls on the parameter file
(lines 391-417): `some v` when the field parsed, `none` otherwise. -/
structure RawParams where
  nx : Option ℤ
  ny : Option ℤ
  maxIters : Option ℤ
  reynolds_dim : Option ℤ
  density : Option ℚ
  accel : Option ℚ
  omega : Option ℚ

/-- Parameter loading of `initialise` (lines 391-417): each failed
`fscanf` calls `die` with the corresponding message; any parsed values
are accepted — the code performs no range checks. -/
def loadParams (r : RawParams) : Except String t_param :=
  match r.nx with
  | none => Except.error "could not read param file: nx"
  | some nx =>
  match r.ny with
  | none => Except.error "could not read param file: ny"
  | some ny =>
  match r.maxIters with
  | none => Except.error "could not read param file: maxIters"
  | some maxIters =>
  match r.reynolds_dim with
  | none => Except.error "could not read param file: reynolds_dim"
  | some reynolds_dim =>
  match r.density with
  | none => Except.error "could not read param file: density"
  | some density =>
  match r.accel with
  | none => Except.error "could not read param file: accel"
  | some accel =>
  match r.omega with
  | none => Except.error "could not read param file: omega"
  | some omega =>
  Except.ok ⟨nx, ny, maxIters, reynolds_dim, density, accel, omega⟩

/-- A parameter file whose seven records parse but with `nx = -1`. -/
def badRaw : RawParams :=
  ⟨some (-1), some 4, some 10, some 4, some 1, some (1 / 200), some 1⟩

/-- Counterexample to C7 as stated: a parameter file with `nx = -1`
(not positive) is accepted — loading succeeds instead of failing. -/
theorem claim_C7_load_counterexample :
    loadParams badRaw = Except.ok ⟨-1, 4, 10, 4, 1, 1 / 200, 1⟩
      ∧ ¬(0 < (-1 : ℤ)) := by
  constructor
  · rfl
  · omega

/-- Claim C7, amended: parameter loading fails fatally exactly when one of
the seven records cannot be read; no positivity, divisibility, or
omega-range validation is performed, so any parseable values (including
non-positive ones and omega outside (0, 2)) are accepted. -/
theorem claim_C7_load_accepts_any_parsed (r : RawParams) :
    (∃ p, loadParams r = Except.ok p)
      ↔ (r.nx.isSome = true ∧ r.ny.isSome = true ∧ r.maxIters.isSome = true
        ∧ r.reynolds_dim.isSome = true ∧ r.density.isSome = true
        ∧ r.accel.isSome = true ∧ r.omega.isSome = true) := by
  obtain ⟨nx, ny, mi, rd, d, a, o⟩ := r
  cases nx <;> cases ny <;> cases mi <;> cases rd <;> cases d <;> cases a <;>
    cases o <;> simp [loadParams]

/-- A grid where each cell may or may not have been written: `some c`
models a written cell, `none` a cell of freshly `malloc`-ed memory. -/
def OGrid : Type := ℕ → Option t_speed

/-- The grid as returned by `malloc` (line 460): nothing written yet. -/
def malloc_grid : OGrid := fun _ => none

/-- `initialise` on the write-tracking grid: only rows `[1, local_ny]`
(indices `[nx, (local_ny+1)*nx)`) are written (lines 512-536). -/
def init_cells_checked (nx local_ny : ℕ) (density : ℚ) (pre : OGrid) : OGrid :=
  fun idx =>
    if nx ≤ idx ∧ idx < (local_ny + 1) * nx then some (restCell density)
    else pre idx

/-- All cells read by the propagate loop (lines 721-743) are written:
each cell `(ii, jj)` with `jj < ny`, `ii < nx` reads itself and its eight
neighbours under periodic wrap. -/
def propagateReadsOk (nx ny : ℕ) (g : OGrid) : Prop :=
  ∀ jj < ny, ∀ ii < nx,
    (g (ii + jj * nx)).isSome = true
    ∧ (g (x_w nx ii + jj * nx)).isSome = true
    ∧ (g (ii + y_s ny jj * nx)).isSome = true
    ∧ (g (x_e nx ii + jj * nx)).isSome = true
    ∧ (g (ii + y_n ny jj * nx)).isSome = true
    ∧ (g (x_w nx ii + y_s ny jj * nx)).isSome = true
    ∧ (g (x_e nx ii + y_s ny jj * nx)).isSome = true
    ∧ (g (x_e nx ii + y_n ny jj * nx)).isSome = true
    ∧ (g (x_w nx ii + y_n ny jj * nx)).isSome = true

instance propagateReadsOkDec (nx ny : ℕ) (g : OGrid) :
    Decidable (propagateReadsOk nx ny g) := by
  unfold propagateReadsOk
  exact inferInstance

/-- `propagate` in the total embedding: reading any unwritten cell is the
error branch (`none`); otherwise the streamed grid of `propagate`. -/
def checkedPropagate (nx ny : ℕ) (g tmp : OGrid) : Option OGrid :=
  if propagateReadsOk nx ny g then
    some (fun idx =>
      if idx < nx * ny then
        some (propagateCell nx ny (fun i => (g i).getD (restCell 0))
          (idx % nx) (idx / nx))
      else tmp idx)
  else none

/-- `accelerate_flow` in the total embedding: the loop reads (and then
conditionally updates in place) every cell of row `ny - 2` (lines
695-713); reading an unwritten cell is the error branch. A cell it
touches is read before being written, so the set of written cells never
grows. -/
def checkedAccelerate (nx ny : ℕ) (density accel : ℚ) (g : OGrid)
    (obst : ℕ → Bool) : Option OGrid :=
  if ∀ ii < nx, (g (ii + (ny - 2) * nx)).isSome = true then
    some (fun idx =>
      if (ny - 2) * nx ≤ idx ∧ idx < (ny - 2) * nx + nx then
        (g idx).map (accelPoint density accel (obst idx))
      else g idx)
  else none

/-- Propagate hits the error branch on any grid whose cell 0 is unwritten. -/
theorem checkedPropagate_none (nx ny : ℕ) (hx : 0 < nx) (hy : 0 < ny)
    (g tmp : OGrid) (h0 : g 0 = none) :
    checkedPropagate nx ny g tmp = none := by
  have hnot : ¬ propagateReadsOk nx ny g := by
    intro hok
    have h := (hok 0 hy 0 hx).1
    rw [show 0 + 0 * nx = 0 by omega, h0] at h
    simp at h
  unfold checkedPropagate
  rw [if_neg hnot]

/-- Claim C9: `initialise` writes only rows `[1, local_ny]` of the local
primary grid, while the kernels index rows `[0, ny)`; in the total
embedding where reading an unwritten cell is the error branch, the first
propagate (preceded by the first accelerate) reaches that branch on every
input — cell `(0, 0)` of row 0 is read but was never written. -/
theorem claim_C9_uninitialised_read (nx ny local_ny : ℕ) (density accel : ℚ)
    (obst : ℕ → Bool) (tmp : OGrid) (hx : 0 < nx) (hy : 0 < ny) :
    ¬ propagateReadsOk nx ny (init_cells_checked nx local_ny density malloc_grid)
    ∧ Option.bind
        (checkedAccelerate nx ny density accel
          (init_cells_checked nx local_ny density malloc_grid) obst)
        (fun g => checkedPropagate nx ny g tmp) = none := by
  have hnone : init_cells_checked nx local_ny density malloc_grid 0 = none := by
    unfold init_cells_checked
    rw [if_neg (by omega)]
    rfl
  constructor
  · intro hok
    have h := (hok 0 hy 0 hx).1
    rw [show 0 + 0 * nx = 0 by omega, hnone] at h
    simp at h
  · unfold checkedAccelerate
    by_cases hA : ∀ ii < nx,
        ((init_cells_checked nx local_ny density malloc_grid
          (ii + (ny - 2) * nx)).isSome = true)
    · rw [if_pos hA]
      rw [Option.some_bind]
      refine checkedPropagate_none nx ny hx hy _ tmp ?_
      show (if (ny - 2) * nx ≤ 0 ∧ 0 < (ny - 2) * nx + nx then
          (init_cells_checked nx local_ny density malloc_grid 0).map
            (accelPoint density accel (obst 0))
        else init_cells_checked nx local_ny density malloc_grid 0) = none
      rw [hnone]
      split
      · rfl
      · rfl
    · rw [if_neg hA]
      rfl

/-- Witness for C9 at `nx = ny = local_ny = 1`. -/
theorem claim_C9_uninitialised_read_witness :
    ((0:ℕ) < 1 ∧ (0:ℕ) < 1) ∧
    (¬ propagateReadsOk 1 1 (init_cells_checked 1 1 1 malloc_grid)
    ∧ Option.bind
        (checkedAccelerate 1 1 1 1 (init_cells_checked 1 1 1 malloc_grid)
          exNoObst)
        (fun g => checkedPropagate 1 1 g malloc_grid) = none) :=
  ⟨⟨by omega, by omega⟩,
   claim_C9_uninitialised_read 1 1 1 1 1 exNoObst malloc_grid
     (by omega) (by omega)⟩

/-- `tot_cells` of `av_velocity` (lines 881-922): the count of
non-obstacle cells inspected by the double loop. -/
def tot_cells (nx ny : ℕ) (obst : ℕ → Bool) : ℕ :=
  ∑ jj ∈ Finset.range ny, ∑ ii ∈ Finset.range nx,
    if obst (ii + jj * nx) = true then 0 else 1

/-- The per-cell velocity magnitude `sqrtf(u_x*u_x + u_y*u_y)` (line 920),
embedded with the exact real square root. -/
noncomputable def cell_u (c : t_speed) : ℝ :=
  Real.sqrt (((u_x c : ℚ) : ℝ) * ((u_x c : ℚ) : ℝ)
    + ((u_y c : ℚ) : ℝ) * ((u_y c : ℚ) : ℝ))

/-- `tot_u` of `av_velocity`: the accumulated velocity magnitudes over
non-obstacle cells. -/
noncomputable def tot_u (nx ny : ℕ) (cells : Grid) (obst : ℕ → Bool) : ℝ :=
  ∑ jj ∈ Finset.range ny, ∑ ii ∈ Finset.range nx,
    if obst (ii + jj * nx) = true then 0 else cell_u (cells (ii + jj * nx))

/-- `av_velocity` (line 927): `tot_u / (float)tot_cells`. -/
noncomputable def av_velocity (nx ny : ℕ) (cells : Grid) (obst : ℕ → Bool) : ℝ :=
  tot_u nx ny cells obst / (tot_cells nx ny obst : ℝ)

/-- Claim C10: when every cell is an obstacle, `av_velocity` accumulates
nothing — `tot_cells = 0` and the returned value is the quotient `0/0`;
when at least one in-range cell is fluid, the divisor `tot_cells` is
strictly positive. -/
theorem claim_C10_av_velocity_guard (nx ny : ℕ) (cells : Grid)
    (obst : ℕ → Bool) :
    ((∀ idx, obst idx = true) →
      tot_cells nx ny obst = 0
        ∧ av_velocity nx ny cells obst = (0 : ℝ) / (0 : ℝ)) ∧
    (∀ j0 i0 : ℕ, j0 < ny → i0 < nx → obst (i0 + j0 * nx) = false →
      0 < tot_cells nx ny obst) := by
  constructor
  · intro hall
    have h1 : tot_cells nx ny obst = 0 := by
      unfold tot_cells
      refine Finset.sum_eq_zero (fun jj _ => Finset.sum_eq_zero (fun ii _ => ?_))
      rw [hall (ii + jj * nx), if_pos rfl]
    have h2 : tot_u nx ny cells obst = 0 := by
      unfold tot_u
      refine Finset.sum_eq_zero (fun jj _ => Finset.sum_eq_zero (fun ii _ => ?_))
      rw [hall (ii + jj * nx), if_pos rfl]
    refine ⟨h1, ?_⟩
    unfold av_velocity
    rw [h1, h2]
    norm_num
  · intro j0 i0 hj hi hfl
    unfold tot_cells
    refine Finset.sum_pos' (fun _ _ => Nat.zero_le _) ⟨j0, Finset.mem_range.mpr hj, ?_⟩
    refine Finset.sum_pos' (fun _ _ => Nat.zero_le _) ⟨i0, Finset.mem_range.mpr hi, ?_⟩
    rw [hfl]
    norm_num

/-- All-obstacle mask used by the C10 witness. -/
def allObst : ℕ → Bool := fun _ => true

/-- Witness for C10 at a `1 × 1` grid: all-obstacle mask gives
`tot_cells = 0` and the `0/0` quotient; the obstacle-free mask gives a
positive divisor. -/
theorem claim_C10_av_velocity_guard_witness :
    (tot_cells 1 1 allObst = 0
      ∧ av_velocity 1 1 exRest allObst = (0 : ℝ) / (0 : ℝ))
    ∧ 0 < tot_cells 1 1 exNoObst :=
  ⟨(claim_C10_av_velocity_guard 1 1 exRest allObst).1 (fun _ => rfl),
   (claim_C10_av_velocity_guard 1 1 exRest exNoObst).2 0 0 (by omega)
     (by omega) rfl⟩
